import Mathlib

/-!
Shallow embedding of `src/Nano_Code_Rev1-3_1.ino`, the firmware of an
auto-ranging ohm meter.  `double`/`float` arithmetic is modelled over `ℚ`
(exact arithmetic); the ADC and the LCD are external peripherals, modelled
as read functions supplied to the embedded operations and as an explicit
display-output value.
-/

namespace OhmMeter

/-- `const uint32_t RESISTOR_1M = 990090;` — the baseline known resistance. -/
def RESISTOR_1M : ℚ := 990090

/-- `const float LEAD_RESISTANCE = 0.08;` — resistance of the test leads. -/
def LEAD_RESISTANCE : ℚ := 0.08

/-- `static const uint32_t RESISTANCE_VALUES[] = {220, 1000, 9997, 100078};` -/
def RESISTANCE_VALUES : List ℚ := [220, 1000, 9997, 100078]

/-- `static const byte NUMBER_OF_SWITCHES = 4;` -/
def NUMBER_OF_SWITCHES : Nat := 4

/-- The six ADS1115 gain settings (`GAIN_TWOTHIRDS` … `GAIN_SIXTEEN`). -/
inductive Gain where
  | twoThirds
  | one
  | two
  | four
  | eight
  | sixteen
  deriving DecidableEq, Repr

/-- The position of a gain tier in the if/else-if chain of `readVoltages`
(narrowest range first, the default `2/3x` tier last). -/
def tierIdx : Gain → Nat
  | .sixteen => 0
  | .eight => 1
  | .four => 2
  | .two => 3
  | .one => 4
  | .twoThirds => 5

/-- The open voltage interval guarding each tier in the if/else-if chain of
`readVoltages` (for `2/3x` the declared full-scale `±6.144 V` range; the code
reaches it through the final `else`). -/
def tierRange : Gain → ℚ × ℚ
  | .sixteen => (-0.256, 0.256)
  | .eight => (-0.512, 0.512)
  | .four => (-0.124, 1.024)
  | .two => (-2.048, 2.048)
  | .one => (-4.096, 4.096)
  | .twoThirds => (-6.144, 6.144)

/-- Membership of a voltage in a tier's guard interval (strict bounds, as in
the source's comparisons). -/
def inTier (g : Gain) (v : ℚ) : Prop :=
  (tierRange g).1 < v ∧ v < (tierRange g).2

instance (g : Gain) (v : ℚ) : Decidable (inTier g v) := by
  unfold inTier; infer_instance

/-- The gain-adjustment if/else-if chain of `readVoltages`
(lines 174–197 of the source), transcribed comparison for comparison. -/
def selectGain (v : ℚ) : Gain :=
  if -0.256 < v ∧ v < 0.256 then .sixteen
  else if -0.512 < v ∧ v < 0.512 then .eight
  else if -0.124 < v ∧ v < 1.024 then .four
  else if -2.048 < v ∧ v < 2.048 then .two
  else if -4.096 < v ∧ v < 4.096 then .one
  else .twoThirds

/-- The gain selection as the specification's sentence describes it: symmetric
tiers (`±0.256`, `±0.512`, `±1.024`, `±2.048`, `±4.096`, else `2/3x`), checked
narrowest to widest with inclusive bounds so that a tie at a shared boundary
breaks toward the higher gain.  This definition follows the spec's words, for
comparison with `selectGain`, which is transcribed from the source. -/
def selectGainSpec (v : ℚ) : Gain :=
  if -0.256 ≤ v ∧ v ≤ 0.256 then .sixteen
  else if -0.512 ≤ v ∧ v ≤ 0.512 then .eight
  else if -1.024 ≤ v ∧ v ≤ 1.024 then .four
  else if -2.048 ≤ v ∧ v ≤ 2.048 then .two
  else if -4.096 ≤ v ∧ v ≤ 4.096 then .one
  else .twoThirds

/-- `1 / ((pow(knownResistance, -1) + pow(RESISTANCE_VALUES[openSwitches], -1)))`
— the reciprocal-sum parallel combination used in the tap loop (line 162). -/
def parallelR (r s : ℚ) : ℚ := 1 / (r⁻¹ + s⁻¹)

/-- The mutable state manipulated by the tap-search loop of `readVoltages`:
the current known resistance, the two voltage readings, and the list of tap
indices written `HIGH` so far, in program order.  The `openSwitches` counter
is carried separately as the recursion argument of `tapLoop`. -/
structure TapState where
  knownResistance : ℚ
  knownVoltage : ℚ
  referenceVoltage : ℚ
  enabledPins : List Nat
  deriving DecidableEq, Repr

/-- The `while (knownVoltage > (referenceVoltage * 0.75) && openSwitches > 0)`
loop of `readVoltages` (lines 159–167).  The first argument is `openSwitches`:
each iteration requires it positive, decrements it, writes
`SWITCHES[openSwitches]` `HIGH`, folds `RESISTANCE_VALUES[openSwitches]` into
the known resistance by `parallelR`, and re-reads both voltages.  `readK k`
and `readR k` are the known-tap and reference voltages the ADC returns after
`k` taps have been enabled. -/
def tapLoop (readK readR : Nat → ℚ) : Nat → TapState → Nat × TapState
  | 0, s => (0, s)
  | n + 1, s =>
    if s.knownVoltage > s.referenceVoltage * 0.75 then
      tapLoop readK readR n
        { knownResistance := parallelR s.knownResistance (RESISTANCE_VALUES.getD n 0)
          knownVoltage := readK (NUMBER_OF_SWITCHES - n)
          referenceVoltage := readR (NUMBER_OF_SWITCHES - n)
          enabledPins := s.enabledPins ++ [n] }
    else (n + 1, s)

/-- The environment of one `readVoltages` call: what `ads.computeVolts` of the
differential reads returns.  `readKnown k` / `readRef k` are the channel-2/3
and channel-0/3 readings taken after `k` taps are enabled; `readUnknown i g`
is the `i`-th channel-0/1 reading of the call, taken with gain `g` active. -/
structure ReadEnv where
  readKnown : Nat → ℚ
  readRef : Nat → ℚ
  readUnknown : Nat → Gain → ℚ

/-- The observable outcome of one `readVoltages` call: the final
`openSwitches` counter and tap state, the final `unknownVoltage`, the gain
left set on the ADC when the call returns, and every gain value passed to
`ads.setGain` during the call, in program order. -/
structure ReadResult where
  openSwitches : Nat
  taps : TapState
  unknownVoltage : ℚ
  gain : Gain
  gainTrace : List Gain
  deriving Repr

/-- The tap state entering the tap loop: all switches reset `LOW`, the known
resistance back at the baseline, and the initial reference/known voltage
readings taken with no taps enabled (lines 141–156). -/
def initTapState (env : ReadEnv) : TapState :=
  { knownResistance := RESISTOR_1M
    knownVoltage := env.readKnown 0
    referenceVoltage := env.readRef 0
    enabledPins := [] }

/-- `readVoltages` (lines 134–204): reset the taps and the known resistance,
read reference and known voltages, run the tap loop, read the unknown voltage
at the default gain, select a gain from it, re-read at that gain, and reset
the gain to `GAIN_TWOTHIRDS`.  The ADC gain is `twoThirds` at entry (the
previous call reset it; `setup` leaves the driver default). -/
def readVoltages (env : ReadEnv) : ReadResult :=
  let r := tapLoop env.readKnown env.readRef NUMBER_OF_SWITCHES
    (initTapState env)
  let v0 := env.readUnknown 0 .twoThirds
  let g := selectGain v0
  let v1 := env.readUnknown 1 g
  { openSwitches := r.1
    taps := r.2
    unknownVoltage := v1
    gain := .twoThirds
    gainTrace := [g, .twoThirds] }

/-- The global measurement scalars of the sketch. -/
structure MeterState where
  unknownResistance : ℚ
  knownResistance : ℚ
  unknownVoltage : ℚ
  knownVoltage : ℚ
  referenceVoltage : ℚ
  current : ℚ
  deriving DecidableEq, Repr

/-- `calculateCurrent` (line 117): `current = knownVoltage/knownResistance;`. -/
def calculateCurrent (s : MeterState) : MeterState :=
  { s with current := s.knownVoltage / s.knownResistance }

/-- `calculateResistance` (lines 125–126):
`calculatedResistance = unknownVoltage/current;`
`unknownResistance = (unknownResistance + calculatedResistance) / 2;`. -/
def calculateResistance (s : MeterState) : MeterState :=
  { s with unknownResistance :=
      (s.unknownResistance + s.unknownVoltage / s.current) / 2 }

/-- What one `displayMeasurement` refresh draws on the LCD. -/
inductive DisplayOut where
  /-- The `"OL"` marker together with `"Range: 0 - 1.5M"`. -/
  | overRange
  /-- `String(resistance) + " ohms"`. -/
  | reading (r : ℚ)
  deriving DecidableEq, Repr

/-- `displayMeasurement` (lines 94–110): when the running average is negative
or `≥ 1.5e6` it is reset to `0` and the over-range screen is drawn; otherwise
the lead resistance is subtracted into a local, the `+2.5%` correction is
applied when the local is `≥ 5e5`, and the local is printed. -/
def displayMeasurement (s : MeterState) : MeterState × DisplayOut :=
  if s.unknownResistance < 0 ∨ s.unknownResistance ≥ 1.5 * 10 ^ 6 then
    ({ s with unknownResistance := 0 }, .overRange)
  else
    let resistance := s.unknownResistance - LEAD_RESISTANCE
    let resistance := if resistance ≥ 5.0 * 10 ^ 5 then resistance * 1.025
      else resistance
    (s, .reading resistance)

/-- A measurement state whose instantaneous estimate
`unknownVoltage / current` is the constant `e` and whose running average
starts at `a`: the setting of the spec's convergence property. -/
def constEstimateState (e a : ℚ) : MeterState :=
  { unknownResistance := a
    knownResistance := RESISTOR_1M
    unknownVoltage := e
    knownVoltage := 0
    referenceVoltage := 0
    current := 1 }

lemma calculateResistance_iterate_unknownVoltage (s : MeterState) (n : Nat) :
    (calculateResistance^[n] s).unknownVoltage = s.unknownVoltage := by
  induction n with
  | zero => rfl
  | succ n ih => rw [Function.iterate_succ_apply']; exact ih

lemma calculateResistance_iterate_current (s : MeterState) (n : Nat) :
    (calculateResistance^[n] s).current = s.current := by
  induction n with
  | zero => rfl
  | succ n ih => rw [Function.iterate_succ_apply']; exact ih

lemma calculateResistance_iterate_avg (s : MeterState) (n : Nat) :
    (calculateResistance^[n] s).unknownResistance
      = s.unknownVoltage / s.current
        - (s.unknownVoltage / s.current - s.unknownResistance) / 2 ^ n := by
  induction n with
  | zero => simp
  | succ n ih =>
    rw [Function.iterate_succ_apply']
    show ((calculateResistance^[n] s).unknownResistance
        + (calculateResistance^[n] s).unknownVoltage
          / (calculateResistance^[n] s).current) / 2 = _
    rw [ih, calculateResistance_iterate_unknownVoltage,
      calculateResistance_iterate_current]
    have h2 : (2 : ℚ) ^ n ≠ 0 := by positivity
    field_simp
    ring

/-- C3: each sample cycle, `calculateCurrent` sets
`current = knownVoltage / knownResistance`, `calculateResistance` computes the
instantaneous estimate `unknownVoltage / current`, and the running average
becomes exactly the mean of the previous average and that estimate. -/
theorem C3_resistance_calculator (s : MeterState) :
    (calculateCurrent s).current = s.knownVoltage / s.knownResistance
    ∧ (calculateResistance (calculateCurrent s)).unknownResistance
        = (s.unknownResistance
            + s.unknownVoltage / (calculateCurrent s).current) / 2
    ∧ (calculateCurrent s).current
        = (calculateResistance (calculateCurrent s)).current :=
  ⟨rfl, rfl, rfl⟩

/-- C4: starting the running average at `A0` and applying the
`calculateResistance` update `N` times with a constant instantaneous estimate
`E` yields exactly `E - (E - A0) / 2 ^ N`. -/
theorem C4_running_average_converges (E A0 : ℚ) (N : Nat) :
    (calculateResistance^[N] (constEstimateState E A0)).unknownResistance
      = E - (E - A0) / 2 ^ N := by
  have h := calculateResistance_iterate_avg (constEstimateState E A0) N
  simpa [constEstimateState] using h

/-- C6: when the running average is negative or at least `1.5e6`, a display
refresh resets the average to zero and draws the over-range screen (the `OL`
marker with the supported range); no error value exists — the refresh is a
total function into a state/display pair. -/
theorem C6_over_range_reset (s : MeterState)
    (h : s.unknownResistance < 0 ∨ s.unknownResistance ≥ 1.5 * 10 ^ 6) :
    displayMeasurement s
      = ({ s with unknownResistance := 0 }, DisplayOut.overRange) := by
  unfold displayMeasurement
  rw [if_pos h]

/-- A concrete state whose running average (2 MΩ) is over range. -/
def overRangeState : MeterState :=
  { unknownResistance := 2000000
    knownResistance := RESISTOR_1M
    unknownVoltage := 0
    knownVoltage := 0
    referenceVoltage := 0
    current := 0 }

/-- Witness for C6 at the spec's 2 MΩ example. -/
theorem C6_over_range_reset_witness :
    displayMeasurement overRangeState
      = ({ overRangeState with unknownResistance := 0 },
          DisplayOut.overRange) :=
  C6_over_range_reset overRangeState (Or.inr (by norm_num [overRangeState]))

/-- C7: for an in-range average, the rendered value is the average minus the
0.08 Ω lead resistance, multiplied by 1.025 exactly when that difference is
`≥ 5e5`; in particular a post-subtraction value of 600000 renders 615000 and
an average of exactly 0.08 renders 0. -/
theorem C7_display_formatting (s : MeterState)
    (h0 : 0 ≤ s.unknownResistance)
    (h1 : s.unknownResistance < 1.5 * 10 ^ 6) :
    ((displayMeasurement s).2
      = .reading (if s.unknownResistance - LEAD_RESISTANCE ≥ 5.0 * 10 ^ 5
          then (s.unknownResistance - LEAD_RESISTANCE) * 1.025
          else s.unknownResistance - LEAD_RESISTANCE))
    ∧ (s.unknownResistance - LEAD_RESISTANCE = 600000
        → (displayMeasurement s).2 = .reading 615000)
    ∧ (s.unknownResistance = LEAD_RESISTANCE
        → (displayMeasurement s).2 = .reading 0) := by
  have hne : ¬ (s.unknownResistance < 0
      ∨ s.unknownResistance ≥ 1.5 * 10 ^ 6) := by
    push_neg
    exact ⟨h0, h1⟩
  refine ⟨?_, ?_, ?_⟩
  · unfold displayMeasurement
    rw [if_neg hne]
  · intro h6
    unfold displayMeasurement
    rw [if_neg hne]
    have : s.unknownResistance - LEAD_RESISTANCE ≥ 5.0 * 10 ^ 5 := by
      rw [h6]; norm_num
    simp only [if_pos this, h6]
    norm_num
  · intro h8
    unfold displayMeasurement
    rw [if_neg hne]
    have hz : s.unknownResistance - LEAD_RESISTANCE = 0 := by
      rw [h8]; ring
    have : ¬ s.unknownResistance - LEAD_RESISTANCE ≥ 5.0 * 10 ^ 5 := by
      rw [hz]; norm_num
    simp only [if_neg this, hz]
    norm_num

/-- A concrete in-range state: average 600000.08 Ω, i.e. post-subtraction
value exactly 600000. -/
def highEndState : MeterState :=
  { unknownResistance := 600000 + LEAD_RESISTANCE
    knownResistance := RESISTOR_1M
    unknownVoltage := 0
    knownVoltage := 0
    referenceVoltage := 0
    current := 0 }

/-- Witness for C7 at the spec's 600000-post-subtraction example. -/
theorem C7_display_formatting_witness :
    (displayMeasurement highEndState).2 = .reading 615000 :=
  (C7_display_formatting highEndState
      (by norm_num [highEndState, LEAD_RESISTANCE])
      (by norm_num [highEndState, LEAD_RESISTANCE])).2.1
    (by norm_num [highEndState])

/-- C9: when the running average is in range, a display refresh returns the
measurement state unchanged — the lead subtraction and the +2.5% correction
live only in the local rendering value. -/
theorem C9_display_frame (s : MeterState)
    (h0 : 0 ≤ s.unknownResistance)
    (h1 : s.unknownResistance < 1.5 * 10 ^ 6) :
    (displayMeasurement s).1 = s := by
  have hne : ¬ (s.unknownResistance < 0
      ∨ s.unknownResistance ≥ 1.5 * 10 ^ 6) := by
    push_neg
    exact ⟨h0, h1⟩
  unfold displayMeasurement
  rw [if_neg hne]

/-- A concrete in-range state with a 100 Ω running average. -/
def midRangeState : MeterState :=
  { unknownResistance := 100
    knownResistance := RESISTOR_1M
    unknownVoltage := 0
    knownVoltage := 0
    referenceVoltage := 0
    current := 0 }

/-- Witness for C9 at a 100 Ω average. -/
theorem C9_display_frame_witness :
    (displayMeasurement midRangeState).1 = midRangeState :=
  C9_display_frame midRangeState (by norm_num [midRangeState])
    (by norm_num [midRangeState])

/-- C10: an average in `[0, 0.08)` — including the `0` the over-range path
resets to — takes the in-range path (the range check precedes the lead
subtraction), so the refresh renders the negative value
`average - 0.08` with the unit suffix rather than the over-range screen. -/
theorem C10_negative_rendering (s : MeterState)
    (h0 : 0 ≤ s.unknownResistance)
    (h1 : s.unknownResistance < LEAD_RESISTANCE) :
    (displayMeasurement s).2
        = .reading (s.unknownResistance - LEAD_RESISTANCE)
    ∧ s.unknownResistance - LEAD_RESISTANCE < 0
    ∧ (displayMeasurement s).2 ≠ DisplayOut.overRange := by
  have hlt : s.unknownResistance - LEAD_RESISTANCE < 0 := by
    have : LEAD_RESISTANCE = 2 / 25 := by norm_num [LEAD_RESISTANCE]
    rw [this] at h1 ⊢
    linarith
  have hne : ¬ (s.unknownResistance < 0
      ∨ s.unknownResistance ≥ 1.5 * 10 ^ 6) := by
    push_neg
    refine ⟨h0, ?_⟩
    have : LEAD_RESISTANCE < 1.5 * 10 ^ 6 := by
      norm_num [LEAD_RESISTANCE]
    linarith
  have hno : ¬ s.unknownResistance - LEAD_RESISTANCE ≥ 5.0 * 10 ^ 5 := by
    push_neg
    have : (0 : ℚ) < 5.0 * 10 ^ 5 := by norm_num
    linarith
  refine ⟨?_, hlt, ?_⟩
  · unfold displayMeasurement
    rw [if_neg hne]
    simp only [if_neg hno]
  · unfold displayMeasurement
    rw [if_neg hne]
    simp only [if_neg hno]
    exact fun h => DisplayOut.noConfusion h

/-- A state holding the exact average, zero, that the over-range path resets
to. -/
def resetState : MeterState :=
  { unknownResistance := 0
    knownResistance := RESISTOR_1M
    unknownVoltage := 0
    knownVoltage := 0
    referenceVoltage := 0
    current := 0 }

/-- Witness for C10 at average 0: the refresh renders `-0.08 ohms`. -/
theorem C10_negative_rendering_witness :
    (displayMeasurement resetState).2 = .reading (0 - LEAD_RESISTANCE) :=
  (C10_negative_rendering resetState (by norm_num [resetState])
      (by norm_num [resetState, LEAD_RESISTANCE])).1

/-- C8: every `readVoltages` call ends with `ads.setGain(GAIN_TWOTHIRDS)`:
the gain left on the ADC is the default widest-range 2/3x tier, the last gain
set during the call is that default, and the gain used for the selection read
was chosen from the rough reading taken at the default tier — so each cycle's
selection starts from the default and the single gain register holds exactly
one tier at any time. -/
theorem C8_gain_reset_to_default (env : ReadEnv) :
    (readVoltages env).gain = Gain.twoThirds
    ∧ (readVoltages env).gainTrace
        = [selectGain (env.readUnknown 0 Gain.twoThirds), Gain.twoThirds]
    ∧ (readVoltages env).gainTrace.getLast? = some Gain.twoThirds :=
  ⟨rfl, rfl, rfl⟩

/-- C2 counterexample: at −0.6 V the claim's symmetric narrowest-tier rule
picks the 4x tier (range ±1.024 V) but the code picks 2x, because the code's
4x guard uses the asymmetric lower bound −0.124; and at the shared boundary
0.256 V the code's strict comparisons send the voltage to the wider 8x tier
while the claim's tie-toward-higher-gain rule picks 16x. -/
theorem C2_counterexample :
    selectGain (-0.6) = Gain.two
    ∧ selectGainSpec (-0.6) = Gain.four
    ∧ Gain.two ≠ Gain.four
    ∧ selectGain 0.256 = Gain.eight
    ∧ selectGainSpec 0.256 = Gain.sixteen := by
  refine ⟨?_, ?_, by decide, ?_, ?_⟩ <;> norm_num [selectGain, selectGainSpec]

/-- C2 (amended): the tier selected for an unknown-resistor voltage is the
first tier in the fixed check order 16x, 8x, 4x, 2x, 1x whose open
(strict-bound) guard interval contains the voltage — the 4x tier's interval
being the asymmetric `(-0.124, 1.024)` — with the default 2/3x tier selected
when no guard matches; because all bounds are exclusive, a voltage on a
shared boundary selects the wider (lower-gain) tier. -/
theorem C2_gain_first_match (v : ℚ) :
    (selectGain v ≠ Gain.twoThirds → inTier (selectGain v) v)
    ∧ (∀ g : Gain, tierIdx g < tierIdx (selectGain v) → ¬ inTier g v) := by
  unfold selectGain
  split_ifs with h1 h2 h3 h4 h5
  · refine ⟨fun _ => h1, fun g hg => ?_⟩
    cases g <;> simp [tierIdx] at hg
  · refine ⟨fun _ => h2, fun g hg => ?_⟩
    cases g <;> simp [tierIdx] at hg
    exact h1
  · refine ⟨fun _ => h3, fun g hg => ?_⟩
    cases g <;> simp [tierIdx] at hg
    exacts [h2, h1]
  · refine ⟨fun _ => h4, fun g hg => ?_⟩
    cases g <;> simp [tierIdx] at hg
    exacts [h3, h2, h1]
  · refine ⟨fun _ => h5, fun g hg => ?_⟩
    cases g <;> simp [tierIdx] at hg
    exacts [h4, h3, h2, h1]
  · refine ⟨fun hne => absurd rfl hne, fun g hg => ?_⟩
    cases g <;> simp [tierIdx] at hg
    exacts [h5, h4, h3, h2, h1]

/-- Witness for C2 (amended) at −0.6 V: no tier checked before the selected
one contains the voltage — in particular not the 16x tier. -/
theorem C2_gain_first_match_witness :
    ¬ inTier Gain.sixteen (-0.6) :=
  (C2_gain_first_match (-0.6)).2 Gain.sixteen (by norm_num [tierIdx, selectGain])

/-- The tap indices written `HIGH` while `openSwitches` falls from `m` to
`f`: the strictly decreasing list `[m-1, m-2, …, f]` (empty when `f = m`). -/
def pinSeq : Nat → Nat → List Nat
  | 0, _ => []
  | m + 1, f => if f ≤ m then m :: pinSeq m f else []

lemma tapLoop_spec (readK readR : Nat → ℚ) (n : Nat) (s : TapState) :
    (tapLoop readK readR n s).1 ≤ n
    ∧ (tapLoop readK readR n s).2.enabledPins
        = s.enabledPins ++ pinSeq n (tapLoop readK readR n s).1
    ∧ ((tapLoop readK readR n s).2.knownVoltage
          ≤ (tapLoop readK readR n s).2.referenceVoltage * 0.75
        ∨ (tapLoop readK readR n s).1 = 0) := by
  induction n generalizing s with
  | zero => exact ⟨Nat.le_refl 0, by simp [tapLoop, pinSeq], Or.inr rfl⟩
  | succ n ih =>
    simp only [tapLoop]
    split_ifs with h
    · obtain ⟨ih1, ih2, ih3⟩ := ih
        { knownResistance := parallelR s.knownResistance
            (RESISTANCE_VALUES.getD n 0)
          knownVoltage := readK (NUMBER_OF_SWITCHES - n)
          referenceVoltage := readR (NUMBER_OF_SWITCHES - n)
          enabledPins := s.enabledPins ++ [n] }
      refine ⟨ih1.trans (Nat.le_succ n), ?_, ih3⟩
      rw [ih2, pinSeq, if_pos ih1, List.append_assoc]
      rfl
    · exact ⟨Nat.le_refl _, by simp [pinSeq], Or.inl (not_lt.mp h)⟩

lemma pinSeq_strict_anti : ∀ f ≤ 4, List.Pairwise (· > ·) (pinSeq 4 f) := by
  decide

/-- C1 (amended): in every sample cycle whose known-tap reading exceeds 75%
of the reference reading, `readVoltages` enables taps one at a time in
strictly DECREASING tap-index order — the largest-resistance tap (index 3,
100078 Ω) first, proceeding down toward the smallest (index 0, 220 Ω) — never
disabling a tap mid-search, until the known-tap voltage is ≤ 75% of the
reference voltage or all four taps are enabled, in which case the cycle
proceeds with all taps enabled and returns normally. -/
theorem C1_tap_search (env : ReadEnv) :
    (readVoltages env).openSwitches ≤ 4
    ∧ (readVoltages env).taps.enabledPins
        = pinSeq 4 (readVoltages env).openSwitches
    ∧ List.Pairwise (· > ·) (readVoltages env).taps.enabledPins
    ∧ ((readVoltages env).taps.knownVoltage
          ≤ (readVoltages env).taps.referenceVoltage * 0.75
        ∨ (readVoltages env).openSwitches = 0) := by
  obtain ⟨h1, h2, h3⟩ := tapLoop_spec env.readKnown env.readRef
    NUMBER_OF_SWITCHES (initTapState env)
  refine ⟨h1, ?_, ?_, h3⟩
  · simpa [initTapState] using h2
  · have h2' : (readVoltages env).taps.enabledPins
        = pinSeq 4 (readVoltages env).openSwitches := by
      simpa [initTapState] using h2
    rw [h2']
    exact pinSeq_strict_anti _ h1

/-- A reading environment in which the known-tap reading always stays above
75% of the reference reading (both constantly 1 V). -/
def stuckEnv : ReadEnv :=
  { readKnown := fun _ => 1
    readRef := fun _ => 1
    readUnknown := fun _ _ => 0 }

lemma tapLoop_exhausts (readK readR : Nat → ℚ)
    (hall : ∀ k, readK k > readR k * 0.75) (n : Nat) :
    ∀ s : TapState, s.knownVoltage > s.referenceVoltage * 0.75
      → (tapLoop readK readR n s).1 = 0 := by
  induction n with
  | zero => intro s _; rfl
  | succ n ih =>
    intro s hs
    simp only [tapLoop]
    rw [if_pos hs]
    exact ih _ (hall _)

/-- C1 counterexample: with the drop ratio pinned above 75%, the first tap
the code enables is index 3 — the 100078 Ω tap — and the complete enable
order is `[3, 2, 1, 0]`, which is strictly index-DECREASING; this refutes the
claimed smallest-resistance-first, index-increasing order. -/
theorem C1_counterexample :
    (readVoltages stuckEnv).taps.enabledPins = [3, 2, 1, 0]
    ∧ (readVoltages stuckEnv).taps.enabledPins.head? ≠ some 0
    ∧ ¬ List.Pairwise (· < ·) (readVoltages stuckEnv).taps.enabledPins
    ∧ RESISTANCE_VALUES.getD 3 0 = 100078 := by
  have hall : ∀ k, stuckEnv.readKnown k > stuckEnv.readRef k * 0.75 := by
    intro k
    norm_num [stuckEnv]
  have h0 : (tapLoop stuckEnv.readKnown stuckEnv.readRef NUMBER_OF_SWITCHES
      (initTapState stuckEnv)).1 = 0 :=
    tapLoop_exhausts _ _ hall _ _ (hall 0)
  have hpins : (readVoltages stuckEnv).taps.enabledPins = [3, 2, 1, 0] := by
    show (tapLoop stuckEnv.readKnown stuckEnv.readRef NUMBER_OF_SWITCHES
        (initTapState stuckEnv)).2.enabledPins = [3, 2, 1, 0]
    have h := (tapLoop_spec stuckEnv.readKnown stuckEnv.readRef
        NUMBER_OF_SWITCHES (initTapState stuckEnv)).2.1
    rw [h0] at h
    simpa [initTapState, pinSeq, NUMBER_OF_SWITCHES] using h
  refine ⟨hpins, ?_, ?_, by norm_num [RESISTANCE_VALUES]⟩
  · rw [hpins]
    decide
  · rw [hpins]
    decide

/-- The known-resistance value after `k` iterations of the tap loop: the
baseline folded through `parallelR` with the tap values in the order the code
enables them (`RESISTANCE_VALUES[3]` first). -/
def knownResAfter : Nat → ℚ
  | 0 => RESISTOR_1M
  | k + 1 => parallelR (knownResAfter k)
      (RESISTANCE_VALUES.getD (NUMBER_OF_SWITCHES - (k + 1)) 0)

lemma tapLoop_knownResistance (readK readR : Nat → ℚ) (n : Nat)
    (s : TapState) (hn : n ≤ 4)
    (hkr : s.knownResistance = knownResAfter (4 - n)) :
    (tapLoop readK readR n s).2.knownResistance
      = knownResAfter (4 - (tapLoop readK readR n s).1) := by
  induction n generalizing s with
  | zero => simpa [tapLoop] using hkr
  | succ n ih =>
    simp only [tapLoop]
    split_ifs with h
    · refine ih _ (by omega) ?_
      show parallelR s.knownResistance (RESISTANCE_VALUES.getD n 0)
        = knownResAfter (4 - n)
      have h4n : (4 : Nat) - n = (4 - (n + 1)) + 1 := by omega
      have hidx : NUMBER_OF_SWITCHES - (4 - (n + 1) + 1) = n := by
        simp only [NUMBER_OF_SWITCHES]
        omega
      rw [h4n, knownResAfter, hidx, hkr]
    · exact hkr

/-- The list of tap resistances enabled after `k` iterations of the tap
loop: the last `k` entries of `RESISTANCE_VALUES`. -/
def enabledTaps (k : Nat) : List ℚ :=
  RESISTANCE_VALUES.drop (NUMBER_OF_SWITCHES - k)

/-- The reciprocal-sum parallel combination of the baseline with every
enabled tap, written as one reciprocal of a sum of reciprocals. -/
def recipKnown (k : Nat) : ℚ :=
  1 / (RESISTOR_1M⁻¹ + ((enabledTaps k).map (fun r => r⁻¹)).sum)

/-- C5: after each tap-loop iteration the known resistance equals the
standard reciprocal-sum parallel combination of the baseline and all enabled
taps, the value is strictly decreasing in the number of enabled taps, the
baseline in parallel with the 220 Ω tap rounds to 219.95 Ω, and the known
resistance `readVoltages` leaves behind is exactly this combination for the
number of taps it enabled. -/
theorem C5_parallel_resistance :
    (∀ k : Nat, k ≤ 4 → knownResAfter k = recipKnown k)
    ∧ (∀ k : Nat, k < 4 → knownResAfter (k + 1) < knownResAfter k)
    ∧ round (parallelR RESISTOR_1M 220 * 100) = (21995 : ℤ)
    ∧ (∀ env : ReadEnv, (readVoltages env).taps.knownResistance
        = knownResAfter (4 - (readVoltages env).openSwitches)) := by
  refine ⟨?_, ?_, ?_, fun env => ?_⟩
  · intro k hk
    interval_cases k <;>
      norm_num [knownResAfter, recipKnown, enabledTaps, RESISTANCE_VALUES,
        RESISTOR_1M, NUMBER_OF_SWITCHES, parallelR]
  · intro k hk
    interval_cases k <;>
      norm_num [knownResAfter, RESISTANCE_VALUES, RESISTOR_1M,
        NUMBER_OF_SWITCHES, parallelR]
  · norm_num [parallelR, RESISTOR_1M, round_eq]
  · exact tapLoop_knownResistance env.readKnown env.readRef
      NUMBER_OF_SWITCHES _ (by norm_num [NUMBER_OF_SWITCHES]) rfl

/-- Witness for C5: one tap strictly lowers the combined resistance, and
`knownResAfter 1` is the reciprocal-sum combination of baseline and the
100078 Ω tap. -/
theorem C5_parallel_resistance_witness :
    knownResAfter 1 < knownResAfter 0 ∧ knownResAfter 1 = recipKnown 1 :=
  ⟨C5_parallel_resistance.2.1 0 (by norm_num),
    C5_parallel_resistance.1 1 (by norm_num)⟩

end OhmMeter
